import Mathlib

/-!
Verification of the data-access and transaction core of a small
FastAPI/SQLAlchemy application (src/main.py) against its natural-language
specification.

The store (a SQLite in-memory database reached through SQLAlchemy sessions)
is modelled as an explicit state: the rows of the `authors`, `books` and
`users` tables.  Each operation in src/main.py is translated into a pure
state-passing function.  Primary-key assignment follows SQLite rowid
assignment (max existing id + 1, starting at 1).  The engine in main.py is
created without enabling SQLite's foreign-key pragma, so the store performs
no referential-integrity checking; the embedding of `add_book` accordingly
performs none.
-/

/-- Row of the `authors` table (class Author, main.py lines 30-36):
`id` integer primary key, `name` non-null string.  The `books`
relationship is a derived view, not a stored column. -/
structure Author where
  id : Nat
  name : String
deriving DecidableEq, Repr

/-- Row of the `books` table (class Book, main.py lines 39-44):
`id` integer primary key, `title` non-null string, `author_id` a nullable
foreign-key column (hence `Option`). -/
structure Book where
  id : Nat
  title : String
  author_id : Option Nat
deriving DecidableEq, Repr

/-- Row of the `users` table (class User, main.py lines 47-51). -/
structure UserRow where
  id : Nat
  username : String
  email : String
deriving DecidableEq, Repr

/-- The committed contents of the SQLite store: one list of rows per table
used by the claims (the `orders` table is never touched by the core). -/
structure Store where
  authors : List Author
  books : List Book
  users : List UserRow
deriving DecidableEq, Repr

/-- SQLite rowid assignment for an INTEGER PRIMARY KEY with no explicit
value: one more than the largest existing id (1 on an empty table). -/
def freshId (ids : List Nat) : Nat :=
  ids.foldr max 0 + 1

/-- The `SQLAlchemyError` as caught and re-raised by the repository
(spec name: `PersistenceError`). -/
structure PersistenceError where
  message : String
deriving DecidableEq, Repr

/-- Embedding of `BookRepository.add_book` (main.py lines 84-96) on its normal path:
builds `Book(title=title, author_id=author_id)`, adds it to the session and
commits, then returns the refreshed entity with its store-assigned id.
The engine (main.py lines 64-69) never enables SQLite's foreign-key
pragma, so the insert is accepted regardless of whether `author_id`
references an existing author row. -/
def add_book (st : Store) (title : String) (author_id : Nat) : Store × Book :=
  let new_book : Book :=
    { id := freshId (st.books.map (·.id)), title := title, author_id := some author_id }
  ({ st with books := st.books ++ [new_book] }, new_book)

/-- Outcome of a repository write once store failures are made explicit:
the propagated result, the committed store afterwards, whether the session
was rolled back, and whether `session.close()` ran. -/
structure AddOutcome where
  result : Except PersistenceError Book
  store : Store
  rolledBack : Bool
  sessionClosed : Bool
deriving Repr

/-- Embedding of `BookRepository.add_book` (main.py lines 84-96) with the store's
behaviour made explicit: `storeFails` says whether the storage engine
raises `SQLAlchemyError` during the write.  The try/except/finally of the
source: on failure the session is rolled back (store unchanged) and the
error re-raised; the `finally` closes the session on every path. -/
def add_bookF (st : Store) (title : String) (author_id : Nat) (storeFails : Bool) :
    AddOutcome :=
  if storeFails then
    { result := Except.error ⟨"SQLAlchemyError"⟩
      store := st
      rolledBack := true
      sessionClosed := true }
  else
    let r := add_book st title author_id
    { result := Except.ok r.2
      store := r.1
      rolledBack := false
      sessionClosed := true }

/-- Embedding of `BookRepository.get_books_by_author` (main.py lines 98-104):
`session.query(Book).filter(Book.author_id == author_id).all()`.
SQL equality against NULL is not true, so rows with a NULL `author_id`
never match. -/
def get_books_by_author (st : Store) (author_id : Nat) : List Book :=
  st.books.filter (fun b => b.author_id == some author_id)

/-- Embedding of `BookRepository.delete_book` (main.py lines 106-119):
`session.get(Book, book_id)` looks the row up by primary key; if present
it is deleted and the session committed (`true`), otherwise `false` with
no state change. -/
def delete_book (st : Store) (book_id : Nat) : Store × Bool :=
  match st.books.find? (fun b => b.id == book_id) with
  | some _ => ({ st with books := st.books.filter (fun b => !(b.id == book_id)) }, true)
  | none => (st, false)

/-- Pydantic schema `BookCreate` (main.py lines 127-129): the create-book
request body; `author_id` is a required, non-optional integer. -/
structure BookCreate where
  title : String
  author_id : Nat
deriving DecidableEq, Repr

/-- Endpoint `POST /books/add` (main.py lines 247-256) on its success
path: forwards the validated `BookCreate` body to the repository. -/
def add_book_endpoint (st : Store) (book : BookCreate) : Store × Book :=
  add_book st book.title book.author_id

/-- Result value of the transactional demo endpoint:
`{"status": "success"}` or `{"status": "error", "message": ...}`. -/
inductive TxResult where
  | success
  | error (message : String)
deriving DecidableEq, Repr

/-- Insert of one `User(username=..., email=...)` via `session.add`,
as staged inside the transactional scope. -/
def insertUser (st : Store) (username email : String) : Store :=
  { st with
    users := st.users ++ [{ id := freshId (st.users.map (·.id)),
                            username := username, email := email }] }

/-- The body of the `with session.begin():` block of
`create_users_transaction` (main.py lines 207-215): stages user1 and
user2, then unconditionally raises the injected failure; the user3 insert
after the raise is unreachable and therefore absent from the result. -/
def usersTransactionBody (st : Store) : Except String Store :=
  let st1 := insertUser st "user1" "user1@example.com"
  let _st2 := insertUser st1 "user2" "user2@example.com"
  Except.error "Искусственная ошибка при добавлении третьего пользователя"

/-- Endpoint `POST /users/transaction` (main.py lines 198-220):
runs the body inside `with session.begin()`; a normal completion commits
the staged writes, while a raised failure rolls every staged write back
and is converted into the `{"status": "error", ...}` response. -/
def create_users_transaction (st : Store) : Store × TxResult :=
  match usersTransactionBody st with
  | Except.ok st2 => (st2, TxResult.success)
  | Except.error msg => (st, TxResult.error ("Транзакция откатилась: " ++ msg))

/-- Referential integrity at the application boundary: every book whose
`author_id` is set references an existing author row. -/
def RefIntegrity (st : Store) : Prop :=
  ∀ b ∈ st.books, ∀ aid, b.author_id = some aid → ∃ a ∈ st.authors, a.id = aid

instance (st : Store) : Decidable (RefIntegrity st) := by
  unfold RefIntegrity
  infer_instance

/-- One entry of the response of the two author-listing endpoints:
`{"id": ..., "name": ..., "books": [titles]}`. -/
structure AuthorView where
  id : Nat
  name : String
  books : List String
deriving DecidableEq, Repr

/-- The books related to one author: rows of `books` whose `author_id`
equals the author's id (the relationship predicate behind both the lazy
`SELECT ... WHERE author_id = ?` and the eager join condition). -/
def relatedBooks (bs : List Book) (a : Author) : List Book :=
  bs.filter (fun b => b.author_id == some a.id)

/-- Endpoint `GET /authors/lazy` (main.py lines 166-179): reads all
authors, then each access to `a.books` issues one further query scoped to
that author's id (the N+1 pattern). -/
def get_authors_lazy (st : Store) : List AuthorView :=
  st.authors.map (fun a =>
    { id := a.id, name := a.name, books := (relatedBooks st.books a).map (·.title) })

/-- The row stream of the LEFT OUTER JOIN that `joinedload(Author.books)`
emits: each author paired with each of its books, or with no book when it
has none (the outer join keeps bookless authors). -/
def authorJoinRows (bs : List Book) (a : Author) : List (Author × Option Book) :=
  if (relatedBooks bs a).isEmpty then [(a, none)]
  else (relatedBooks bs a).map (fun b => (a, some b))

/-- All rows of the eager-load join, author table outermost. -/
def eagerRows (authors : List Author) (bs : List Book) : List (Author × Option Book) :=
  authors.flatMap (authorJoinRows bs)

/-- The ORM's identity-map uniquing of the joined author rows: keep each
author the first time its primary key is seen. -/
def dedupById (seen : List Nat) : List Author → List Author
  | [] => []
  | a :: rest =>
      if a.id ∈ seen then dedupById seen rest
      else a :: dedupById (a.id :: seen) rest

/-- Endpoint `GET /authors/eager` (main.py lines 181-193):
`session.query(Author).options(joinedload(Author.books)).all()` — one
LEFT OUTER JOIN query; the ORM uniquifies the author entities by primary
key and collects each author's joined book rows into its `books`
collection before the result is built. -/
def get_authors_eager (st : Store) : List AuthorView :=
  (dedupById [] ((eagerRows st.authors st.books).map Prod.fst)).map (fun a =>
    { id := a.id, name := a.name
      books := (eagerRows st.authors st.books).filterMap (fun r =>
        if r.1.id = a.id then r.2.map (·.title) else none) })

/-- Inner-join row stream `authors JOIN books ON authors.id =
books.author_id`, author table outermost.  Authors with no matching book
produce no rows. -/
def aggRows (authors : List Author) (bs : List Book) : List (Author × Book) :=
  authors.flatMap (fun a => (relatedBooks bs a).map (fun b => (a, b)))

/-- The inner-join row stream of the aggregate query (main.py lines
298-305) over the current store. -/
def aggregateJoinRows (st : Store) : List (Author × Book) :=
  aggRows st.authors st.books

/-- The distinct group keys of `GROUP BY authors.name`, in order of first
appearance in the joined row stream. -/
def groupNames (seen : List String) : List String → List String
  | [] => []
  | n :: rest =>
      if n ∈ seen then groupNames seen rest
      else n :: groupNames (n :: seen) rest

/-- Endpoint `GET /authors/book_counts` (main.py lines 286-310): the Core
statement `SELECT name, count(books.id) FROM authors JOIN books ON
authors.id = books.author_id GROUP BY name`, returned as
`{"author": name, "book_count": count}` rows.  Grouping is by the `name`
column, so all joined rows sharing a name fall into one group. -/
def get_authors_book_counts (st : Store) : List (String × Nat) :=
  (groupNames [] ((aggregateJoinRows st).map (fun r => r.1.name))).map (fun n =>
    (n, ((aggregateJoinRows st).filter (fun r => r.1.name == n)).length))

/-- The store after `startup_event` (main.py lines 150-161) has seeded the
author "Ахматова" with the books "Реквием" and "Поэма без героя". -/
def seedStore : Store :=
  { authors := [⟨1, "Ахматова"⟩],
    books := [⟨1, "Реквием", some 1⟩, ⟨2, "Поэма без героя", some 1⟩],
    users := [] }

/-- A reachable store with two distinct authors that share the name "X",
each owning one book (author names carry no uniqueness constraint). -/
def twoSameNameStore : Store :=
  { authors := [⟨1, "X"⟩, ⟨2, "X"⟩],
    books := [⟨1, "B1", some 1⟩, ⟨2, "B2", some 2⟩],
    users := [] }

/-! ## Theorems -/

/-- C1.  The transactional demo operation inserts two User entities and
then raises an injected failure before the `with session.begin()` scope
completes; after the call returns, the store is exactly as it was before
the sequence began, so neither inserted User exists in it. -/
theorem transaction_rolls_back_all_writes (st : Store) :
    (create_users_transaction st).1 = st := rfl

/-- C9.  The injected failure in `create_users_transaction` is raised
unconditionally, so the call can never return the success result: for
every store state it returns the error value describing the rollback, the
third User insert is unreachable, and no User is persisted. -/
theorem transaction_always_errors (st : Store) :
    (create_users_transaction st).2 =
      TxResult.error ("Транзакция откатилась: " ++
        "Искусственная ошибка при добавлении третьего пользователя") ∧
    (create_users_transaction st).2 ≠ TxResult.success ∧
    (create_users_transaction st).1.users = st.users :=
  ⟨rfl, by intro hc; exact TxResult.noConfusion hc, rfl⟩

/-- C5.  Repository round-trip: after `add(title, author_id)` succeeds,
`list_by_author(author_id)` returns a sequence including an entity whose
title is the added title and whose `author_id` is the added author id. -/
theorem add_then_list_roundtrip (st : Store) (title : String) (author_id : Nat) :
    ∃ b ∈ get_books_by_author (add_book st title author_id).1 author_id,
      b.title = title ∧ b.author_id = some author_id := by
  refine ⟨(add_book st title author_id).2, ?_, rfl, rfl⟩
  simp [get_books_by_author, add_book]

/-- C10.  The public create path takes a non-optional integer `author_id`
(`BookCreate` then `add_book`), so although the Book column is nullable,
every Book created through the repository's add operation is persisted
with its `author_id` set (to the requested id). -/
theorem created_books_have_author_id (st : Store) (book : BookCreate) :
    (add_book_endpoint st book).2.author_id = some book.author_id ∧
    (add_book_endpoint st book).2.author_id.isSome = true ∧
    (add_book_endpoint st book).2 ∈ (add_book_endpoint st book).1.books := by
  refine ⟨rfl, rfl, ?_⟩
  simp [add_book_endpoint, add_book]

/-- C7.  When the store raises during `add_book`, the unit of work is
rolled back (the store is left unchanged), the failure is propagated to
the caller as a typed `PersistenceError` rather than swallowed, and the
session is closed — on the failure path and on every other path. -/
theorem add_book_failure_propagates (st : Store) (title : String) (author_id : Nat) :
    (add_bookF st title author_id true).store = st ∧
    (∃ e : PersistenceError,
      (add_bookF st title author_id true).result = Except.error e) ∧
    (add_bookF st title author_id true).rolledBack = true ∧
    (∀ storeFails : Bool, (add_bookF st title author_id storeFails).sessionClosed = true) := by
  refine ⟨rfl, ⟨⟨"SQLAlchemyError"⟩, rfl⟩, rfl, ?_⟩
  intro storeFails
  cases storeFails <;> rfl

/-- C3 counterexample.  On the empty store, `add_book("T", 99)` succeeds
and persists a Book whose `author_id` is 99 although no Author row exists
at all, so referential integrity does not hold after the operation. -/
theorem add_book_dangling_author_persists :
    (add_book ⟨[], [], []⟩ "T" 99).1.books = [⟨1, "T", some 99⟩] ∧
    (add_book ⟨[], [], []⟩ "T" 99).1.authors = [] ∧
    ¬ RefIntegrity (add_book ⟨[], [], []⟩ "T" 99).1 :=
  ⟨rfl, rfl, by decide⟩

/-- C3 amended.  The engine never enables SQLite's foreign-key pragma, so
the store does not enforce referential integrity: an `add_book` call whose
`author_id` references no existing Author still succeeds and persists the
Book with that dangling `author_id`, leaving the store in a state that
violates the referential-integrity invariant. -/
theorem add_book_ignores_referential_integrity (st : Store) (title : String)
    (author_id : Nat) (h : ∀ a ∈ st.authors, a.id ≠ author_id) :
    (add_book st title author_id).2 ∈ (add_book st title author_id).1.books ∧
    (add_book st title author_id).2.author_id = some author_id ∧
    ¬ RefIntegrity (add_book st title author_id).1 := by
  refine ⟨by simp [add_book], rfl, ?_⟩
  intro hri
  obtain ⟨a, ha, haid⟩ :=
    hri (add_book st title author_id).2 (by simp [add_book]) author_id rfl
  exact h a ha haid

/-- Witness for C3 amended at the empty store and `author_id = 99`. -/
theorem add_book_ignores_referential_integrity_witness :
    (∀ a ∈ (⟨[], [], []⟩ : Store).authors, a.id ≠ 99) ∧
    ¬ RefIntegrity (add_book ⟨[], [], []⟩ "T2" 99).1 :=
  ⟨by decide, (add_book_ignores_referential_integrity ⟨[], [], []⟩ "T2" 99 (by decide)).2.2⟩

/-- C6.  `delete_book`: when no Book with the given id exists, it returns
`false` and leaves the store unchanged (so a second call is safe and
returns `false` again); when such a Book exists, it deletes it and returns
`true`, touching nothing else. -/
theorem delete_book_spec (st : Store) (book_id : Nat) :
    ((∀ b ∈ st.books, b.id ≠ book_id) →
        delete_book st book_id = (st, false) ∧
        delete_book (delete_book st book_id).1 book_id = (st, false)) ∧
    ((∃ b ∈ st.books, b.id = book_id) →
        (delete_book st book_id).2 = true ∧
        (∀ b ∈ (delete_book st book_id).1.books, b.id ≠ book_id) ∧
        (∀ b ∈ st.books, b.id ≠ book_id → b ∈ (delete_book st book_id).1.books) ∧
        (delete_book st book_id).1.authors = st.authors ∧
        (delete_book st book_id).1.users = st.users) := by
  constructor
  · intro habs
    have hnone : st.books.find? (fun b => b.id == book_id) = none := by
      apply List.find?_eq_none.mpr
      intro b hb
      simpa using habs b hb
    have h1 : delete_book st book_id = (st, false) := by
      simp [delete_book, hnone]
    exact ⟨h1, by rw [h1]; exact h1⟩
  · rintro ⟨b, hb, hbid⟩
    have hsome : (st.books.find? (fun b => b.id == book_id)).isSome := by
      rw [List.find?_isSome]
      exact ⟨b, hb, by simpa using hbid⟩
    obtain ⟨c, hc⟩ := Option.isSome_iff_exists.mp hsome
    refine ⟨by simp [delete_book, hc], ?_, ?_, by simp [delete_book, hc],
      by simp [delete_book, hc]⟩
    · intro x hx
      simp [delete_book, hc] at hx
      exact hx.2
    · intro x hx hxid
      simp only [delete_book, hc]
      exact List.mem_filter.mpr ⟨hx, by simpa using hxid⟩

/-- Witness for C6 on the seeded store: deleting absent id 99 returns
`false` twice with no change; deleting present id 1 returns `true`. -/
theorem delete_book_spec_witness :
    ((∀ b ∈ seedStore.books, b.id ≠ 99) ∧
      delete_book seedStore 99 = (seedStore, false)) ∧
    ((∃ b ∈ seedStore.books, b.id = 1) ∧
      (delete_book seedStore 1).2 = true) :=
  ⟨⟨by decide, ((delete_book_spec seedStore 99).1 (by decide)).1⟩,
   ⟨by decide, ((delete_book_spec seedStore 1).2 (by decide)).1⟩⟩

/-- Unfolding lemma: `dedupById` on a cons. -/
theorem dedupById_cons (seen : List Nat) (a : Author) (rest : List Author) :
    dedupById seen (a :: rest) =
      if a.id ∈ seen then dedupById seen rest
      else a :: dedupById (a.id :: seen) rest := rfl

/-- Every row the outer join emits for an author carries that author. -/
theorem authorJoinRows_fst (bs : List Book) (a : Author) :
    ∀ r ∈ authorJoinRows bs a, r.1 = a := by
  intro r hr
  unfold authorJoinRows at hr
  split at hr
  · simp only [List.mem_singleton] at hr
    rw [hr]
  · obtain ⟨b, _, rfl⟩ := List.mem_map.mp hr
    rfl

/-- The outer join emits at least one row per author, all carrying it. -/
theorem authorJoinRows_fst_shape (bs : List Book) (a : Author) :
    ∃ t : List Author, (authorJoinRows bs a).map Prod.fst = a :: t ∧ ∀ x ∈ t, x = a := by
  unfold authorJoinRows
  split
  · exact ⟨[], rfl, by simp⟩
  · rename_i hne
    cases hrs : relatedBooks bs a with
    | nil => rw [hrs] at hne; simp at hne
    | cons b bs' =>
      refine ⟨bs'.map (fun _ => a), ?_, ?_⟩
      · simp [Function.comp_def]
      · intro x hx
        obtain ⟨_, _, rfl⟩ := List.mem_map.mp hx
        rfl

/-- Lemma: `dedupById` only depends on which ids of the list are already seen. -/
theorem dedupById_congr_seen : ∀ (l : List Author) (s1 s2 : List Nat),
    (∀ x ∈ l, x.id ∈ s1 ↔ x.id ∈ s2) → dedupById s1 l = dedupById s2 l := by
  intro l
  induction l with
  | nil => intro s1 s2 _; rfl
  | cons a rest ih =>
    intro s1 s2 h
    rw [dedupById_cons, dedupById_cons]
    by_cases hmem : a.id ∈ s1
    · rw [if_pos hmem, if_pos ((h a (List.mem_cons_self a rest)).mp hmem)]
      exact ih s1 s2 (fun x hx => h x (List.mem_cons_of_mem a hx))
    · rw [if_neg hmem, if_neg (fun hc => hmem ((h a (List.mem_cons_self a rest)).mpr hc))]
      congr 1
      refine ih (a.id :: s1) (a.id :: s2) (fun x hx => ?_)
      simp only [List.mem_cons]
      exact or_congr_right (h x (List.mem_cons_of_mem a hx))

/-- A prefix whose ids were all seen already is skipped by `dedupById`. -/
theorem dedupById_append_skip : ∀ (t : List Author) (seen : List Nat) (L : List Author),
    (∀ x ∈ t, x.id ∈ seen) → dedupById seen (t ++ L) = dedupById seen L := by
  intro t
  induction t with
  | nil => intro seen L _; rfl
  | cons x t' ih =>
    intro seen L h
    rw [List.cons_append, dedupById_cons, if_pos (h x (List.mem_cons_self x t'))]
    exact ih seen L (fun y hy => h y (List.mem_cons_of_mem x hy))

/-- Lemma: `dedupById` returns a sublist of its input. -/
theorem dedupById_subset : ∀ (l : List Author) (seen : List Nat) (x : Author),
    x ∈ dedupById seen l → x ∈ l := by
  intro l
  induction l with
  | nil => intro seen x hx; exact absurd hx (List.not_mem_nil x)
  | cons a rest ih =>
    intro seen x hx
    rw [dedupById_cons] at hx
    split at hx
    · exact List.mem_cons_of_mem a (ih seen x hx)
    · rcases List.mem_cons.mp hx with h | h
      · exact h ▸ List.mem_cons_self x rest
      · exact List.mem_cons_of_mem a (ih _ x h)

/-- Every author appearing in the eager join rows is in the author list. -/
theorem eagerRows_fst_mem (A : List Author) (bs : List Book) :
    ∀ r ∈ eagerRows A bs, r.1 ∈ A := by
  intro r hr
  obtain ⟨a, ha, hra⟩ := List.mem_flatMap.mp hr
  rw [authorJoinRows_fst bs a r hra]
  exact ha

/-- Collecting the book titles of an author's own join rows yields exactly
the titles of its related books. -/
theorem authorJoinRows_titles (bs : List Book) (a : Author) :
    (authorJoinRows bs a).filterMap (fun r =>
        if r.1.id = a.id then r.2.map (·.title) else none)
      = (relatedBooks bs a).map (·.title) := by
  unfold authorJoinRows
  split
  · rename_i he
    rw [List.isEmpty_iff.mp he]
    simp
  · rw [List.filterMap_map]
    simp only [Function.comp_def, if_pos rfl]
    exact congrFun (List.filterMap_eq_map fun x : Book => x.title) (relatedBooks bs a)

/-- Join rows of other authors contribute nothing to a given author's
collected titles. -/
theorem filterMap_titles_of_ne (i : Nat) (rows : List (Author × Option Book))
    (h : ∀ r ∈ rows, r.1.id ≠ i) :
    rows.filterMap (fun r => if r.1.id = i then r.2.map (·.title) else none) = [] := by
  rw [List.filterMap_eq_nil_iff]
  intro r hr
  rw [if_neg (h r hr)]

/-- The heart of the lazy/eager comparison: when author ids are unique
(as the primary key guarantees), rebuilding each author's book list from
the eager outer-join row stream gives exactly the per-author filtered
lists that lazy loading produces. -/
theorem eager_matches_lazy (bs : List Book) :
    ∀ A : List Author, (A.map (·.id)).Nodup →
      (dedupById [] ((eagerRows A bs).map Prod.fst)).map (fun a =>
        ({ id := a.id, name := a.name,
           books := (eagerRows A bs).filterMap (fun r =>
             if r.1.id = a.id then r.2.map (·.title) else none) } : AuthorView))
      = A.map (fun a =>
        { id := a.id, name := a.name, books := (relatedBooks bs a).map (·.title) }) := by
  intro A
  induction A with
  | nil => intro _; rfl
  | cons a A' ih =>
    intro h
    rw [List.map_cons, List.nodup_cons] at h
    obtain ⟨hnot, hnodup⟩ := h
    have hrows : eagerRows (a :: A') bs = authorJoinRows bs a ++ eagerRows A' bs :=
      List.flatMap_cons a A' (authorJoinRows bs)
    have hA'mem : ∀ x ∈ (eagerRows A' bs).map Prod.fst, x ∈ A' := by
      intro x hx
      obtain ⟨r, hr, rfl⟩ := List.mem_map.mp hx
      exact eagerRows_fst_mem A' bs r hr
    have hA'ne : ∀ x ∈ (eagerRows A' bs).map Prod.fst, x.id ≠ a.id := by
      intro x hx hc
      exact hnot (hc ▸ List.mem_map_of_mem (·.id) (hA'mem x hx))
    obtain ⟨t, ht, hta⟩ := authorJoinRows_fst_shape bs a
    have hdedup : dedupById [] ((eagerRows (a :: A') bs).map Prod.fst)
        = a :: dedupById [] ((eagerRows A' bs).map Prod.fst) := by
      rw [hrows, List.map_append, ht, List.cons_append, dedupById_cons,
        if_neg (List.not_mem_nil a.id),
        dedupById_append_skip t [a.id] _ (fun x hx => by
          rw [hta x hx]; exact List.mem_singleton.mpr rfl)]
      congr 1
      refine dedupById_congr_seen _ [a.id] [] (fun x hx => ?_)
      simp only [List.mem_singleton, List.not_mem_nil, iff_false]
      exact hA'ne x hx
    rw [hdedup, List.map_cons, List.map_cons]
    congr 1
    · have hbooks : (eagerRows (a :: A') bs).filterMap (fun r =>
          if r.1.id = a.id then r.2.map (·.title) else none)
          = (relatedBooks bs a).map (·.title) := by
        rw [hrows, List.filterMap_append, authorJoinRows_titles,
          filterMap_titles_of_ne a.id _ (fun r hr => by
            intro hc
            exact hA'ne r.1 (List.mem_map_of_mem Prod.fst hr) hc),
          List.append_nil]
      rw [hbooks]
    · rw [← ih hnodup]
      refine List.map_congr_left (fun x hx => ?_)
      have hxA' : x ∈ A' := hA'mem x (dedupById_subset _ [] x hx)
      have hxne : x.id ≠ a.id := fun hc =>
        hnot (hc ▸ List.mem_map_of_mem (·.id) hxA')
      have : (eagerRows (a :: A') bs).filterMap (fun r =>
          if r.1.id = x.id then r.2.map (·.title) else none)
          = (eagerRows A' bs).filterMap (fun r =>
            if r.1.id = x.id then r.2.map (·.title) else none) := by
        rw [hrows, List.filterMap_append,
          filterMap_titles_of_ne x.id _ (fun r hr => by
            rw [authorJoinRows_fst bs a r hr]
            exact fun hc => hxne hc.symm),
          List.nil_append]
      rw [this]

/-- C2.  Lazy/eager equivalence: for every store state whose author ids
are unique (as the primary key guarantees), `get_authors_lazy` and
`get_authors_eager` return equal result lists — the same authors with the
same associated book titles, hence in particular the same
author-name-to-book-titles mapping under any order-independent reading. -/
theorem lazy_eager_equivalent (st : Store)
    (h : (st.authors.map (·.id)).Nodup) :
    get_authors_lazy st = get_authors_eager st := by
  unfold get_authors_lazy get_authors_eager
  exact (eager_matches_lazy st.books st.authors h).symm

/-- Witness for C2 on the seeded store ("Ахматова" with two books). -/
theorem lazy_eager_equivalent_witness :
    (seedStore.authors.map (·.id)).Nodup ∧
    get_authors_lazy seedStore = get_authors_eager seedStore :=
  ⟨by decide, lazy_eager_equivalent seedStore (by decide)⟩

/-- C4.  Aggregate scenario: with one author owning exactly two books and
a second, differently named author owning none, the inner-join aggregate
returns exactly one row — the first author with `book_count = 2` — and no
row mentions the second author. -/
theorem aggregate_inner_join_scenario (n1 n2 t1 t2 : String) (h : n1 ≠ n2) :
    get_authors_book_counts
        { authors := [⟨1, n1⟩, ⟨2, n2⟩],
          books := [⟨1, t1, some 1⟩, ⟨2, t2, some 1⟩], users := [] }
      = [(n1, 2)] ∧
    ∀ r ∈ get_authors_book_counts
        { authors := [⟨1, n1⟩, ⟨2, n2⟩],
          books := [⟨1, t1, some 1⟩, ⟨2, t2, some 1⟩], users := [] },
      r.1 ≠ n2 := by
  have hmain : get_authors_book_counts
      { authors := [⟨1, n1⟩, ⟨2, n2⟩],
        books := [⟨1, t1, some 1⟩, ⟨2, t2, some 1⟩], users := [] } = [(n1, 2)] := by
    simp [get_authors_book_counts, aggregateJoinRows, aggRows, relatedBooks, groupNames]
  refine ⟨hmain, ?_⟩
  rw [hmain]
  intro r hr
  rw [List.mem_singleton.mp hr]
  exact fun hc => h hc

/-- Witness for C4 at concrete names and titles. -/
theorem aggregate_inner_join_scenario_witness :
    ("A" : String) ≠ "B" ∧
    get_authors_book_counts
        { authors := [⟨1, "A"⟩, ⟨2, "B"⟩],
          books := [⟨1, "T1", some 1⟩, ⟨2, "T2", some 1⟩], users := [] }
      = [("A", 2)] :=
  ⟨by decide, (aggregate_inner_join_scenario "A" "B" "T1" "T2" (by decide)).1⟩

/-- C8 counterexample.  In a store with two distinct authors that share
the name "X", each owning one book, both authors are retained by the
inner join, yet the aggregate — which groups by the `name` column —
returns the single merged row `("X", 2)`. -/
theorem aggregate_merges_same_name_authors :
    (∃ r ∈ aggregateJoinRows twoSameNameStore, r.1.id = 1) ∧
    (∃ r ∈ aggregateJoinRows twoSameNameStore, r.1.id = 2) ∧
    twoSameNameStore.authors.length = 2 ∧
    get_authors_book_counts twoSameNameStore = [("X", 2)] := by
  refine ⟨?_, ?_, rfl, by decide⟩ <;> decide

/-- Unfolding lemma: `groupNames` on a cons. -/
theorem groupNames_cons (seen : List String) (n : String) (rest : List String) :
    groupNames seen (n :: rest) =
      if n ∈ seen then groupNames seen rest
      else n :: groupNames (n :: seen) rest := rfl

/-- A name occurring in the row stream and not yet seen survives into the
group keys. -/
theorem groupNames_mem : ∀ (l : List String) (seen : List String) (n : String),
    n ∈ l → n ∉ seen → n ∈ groupNames seen l := by
  intro l
  induction l with
  | nil => intro seen n hn _; exact absurd hn (List.not_mem_nil n)
  | cons m rest ih =>
    intro seen n hn hseen
    rw [groupNames_cons]
    by_cases hm : m ∈ seen
    · rw [if_pos hm]
      rcases List.mem_cons.mp hn with rfl | hn'
      · exact absurd hm hseen
      · exact ih seen n hn' hseen
    · rw [if_neg hm]
      rcases List.mem_cons.mp hn with rfl | hn'
      · exact List.mem_cons_self n _
      · by_cases hnm : n = m
        · exact hnm ▸ List.mem_cons_self m _
        · exact List.mem_cons_of_mem m (ih (m :: seen) n hn'
            (fun hc => (List.mem_cons.mp hc).elim hnm hseen))

/-- Every author appearing in the inner-join rows is in the author list. -/
theorem aggRows_fst_mem (A : List Author) (bs : List Book) :
    ∀ r ∈ aggRows A bs, r.1 ∈ A := by
  intro r hr
  obtain ⟨a, ha, hra⟩ := List.mem_flatMap.mp hr
  obtain ⟨b, _, rfl⟩ := List.mem_map.mp hra
  exact ha

/-- When author names are pairwise distinct, the join rows grouped under
one author's name are exactly that author's own rows. -/
theorem aggRows_filter_name (bs : List Book) :
    ∀ (A : List Author) (a : Author), (A.map (·.name)).Nodup → a ∈ A →
      (aggRows A bs).filter (fun r => r.1.name == a.name)
        = (relatedBooks bs a).map (fun b => (a, b)) := by
  intro A
  induction A with
  | nil => intro a _ ha; exact absurd ha (List.not_mem_nil a)
  | cons a' A' ih =>
    intro a h ha
    rw [List.map_cons, List.nodup_cons] at h
    obtain ⟨hnot, hnodup⟩ := h
    have hrows : aggRows (a' :: A') bs
        = (relatedBooks bs a').map (fun b => (a', b)) ++ aggRows A' bs :=
      List.flatMap_cons a' A' _
    rw [hrows, List.filter_append]
    rcases List.mem_cons.mp ha with rfl | ha'
    · have h1 : ((relatedBooks bs a).map (fun b => (a, b))).filter
          (fun r => r.1.name == a.name) = (relatedBooks bs a).map (fun b => (a, b)) := by
        rw [List.filter_eq_self]
        intro r hr
        obtain ⟨b, _, rfl⟩ := List.mem_map.mp hr
        exact beq_self_eq_true a.name
      have h2 : (aggRows A' bs).filter (fun r => r.1.name == a.name) = [] := by
        rw [List.filter_eq_nil_iff]
        intro r hr
        have : r.1.name ∈ A'.map (·.name) :=
          List.mem_map_of_mem (·.name) (aggRows_fst_mem A' bs r hr)
        simpa using fun hc : r.1.name = a.name => hnot (hc ▸ this)
      rw [h1, h2, List.append_nil]
    · have hne : a'.name ≠ a.name := fun hc =>
        hnot (hc ▸ List.mem_map_of_mem (·.name) ha')
      have h1 : ((relatedBooks bs a').map (fun b => (a', b))).filter
          (fun r => r.1.name == a.name) = [] := by
        rw [List.filter_eq_nil_iff]
        intro r hr
        obtain ⟨b, _, rfl⟩ := List.mem_map.mp hr
        simpa using hne
      rw [h1, List.nil_append]
      exact ih a hnodup ha'

/-- C8 amended.  The aggregate query returns one row per distinct author
*name* occurring in the join (grouping is by the `name` column, so two
authors sharing a name are merged); when all author names are pairwise
distinct, every author retained by the inner join contributes its own row
carrying its own book count. -/
theorem aggregate_row_per_author_name (st : Store)
    (h : (st.authors.map (·.name)).Nodup) :
    ∀ a ∈ st.authors, relatedBooks st.books a ≠ [] →
      (a.name, (relatedBooks st.books a).length) ∈ get_authors_book_counts st := by
  intro a ha hne
  have hfilter := aggRows_filter_name st.books st.authors a h ha
  obtain ⟨b, hb⟩ := List.exists_mem_of_ne_nil _ hne
  have hrowmem : (a, b) ∈ aggregateJoinRows st := by
    rw [aggregateJoinRows]
    exact List.mem_flatMap.mpr ⟨a, ha, List.mem_map_of_mem _ hb⟩
  have hname : a.name ∈ (aggregateJoinRows st).map (fun r => r.1.name) := by
    have := List.mem_map_of_mem (fun r : Author × Book => r.1.name) hrowmem
    simpa using this
  unfold get_authors_book_counts
  refine List.mem_map.mpr ⟨a.name,
    groupNames_mem _ [] a.name hname (List.not_mem_nil a.name), ?_⟩
  rw [show (aggregateJoinRows st).filter (fun r => r.1.name == a.name)
      = (relatedBooks st.books a).map (fun b => (a, b)) from hfilter,
    List.length_map]

/-- Witness for C8 amended on the seeded store. -/
theorem aggregate_row_per_author_name_witness :
    (seedStore.authors.map (·.name)).Nodup ∧
    ("Ахматова", 2) ∈ get_authors_book_counts seedStore := by
  refine ⟨by decide, ?_⟩
  have h := aggregate_row_per_author_name seedStore (by decide)
    ⟨1, "Ахматова"⟩ (by decide) (by decide)
  simpa using h
